import Mathlib

/-!
Verification of the akula core pipeline primitives against their
natural-language specification.  The Lean definitions below are shallow
embeddings of the Rust source:

* `src/execution/evm/state.rs` — the EVM stack and gas-metered heap growth
  (`EvmStack`, `ExecutionState::get_heap`, `ExecutionState::try_grow`,
  `mem_cost`, `num_words_u64`);
* `src/accessors/chain.rs` — the `tx::read` accessor;
* `src/state/history.rs` — `get_account_data_as_of` / `find_data_by_history`;
* `src/stages/headers.rs` — `HeaderDownload::execute`, the download loop and
  `HeaderDownload::verify_seal`.

Machine integers are modelled as `Nat`/`Int`; all quantities involved stay
far below the width of the corresponding Rust types on the inputs the
theorems speak about, so no wrap-around is modelled where it cannot occur.
-/

namespace Akula

/-! ## EVM memory subsystem (`src/execution/evm/state.rs`) -/

namespace Evm

/-- `WORD_SIZE`: the size of the EVM 256-bit word in bytes. -/
def WORD_SIZE : Nat := 32

/-- `STACK_SIZE`: size of the EVM stack in 256-bit words. -/
def STACK_SIZE : Nat := 1024

/-- `num_words_u64` from `state.rs`: rounds a byte count up to 32-byte words. -/
def num_words_u64 (size_in_bytes : Nat) : Nat :=
  (size_in_bytes + (WORD_SIZE - 1)) / WORD_SIZE

/-- `mem_cost` from `state.rs`:
`(words * words) / 512 + 3 * words` in `i64` arithmetic.  Both divisions are
on non-negative operands, where Rust `i64` division agrees with `Nat`
division, so the cost is computed in `Nat` and cast to `Int`. -/
def mem_cost (words : Nat) : Int :=
  ((words * words) / 512 + 3 * words : Nat)

/-- The gas/heap part of `ExecutionState`: `gas_left: i64` and the
sub-memory's `heap_size` in 32-byte words (`u32` in the source). -/
structure ExecutionState where
  gas_left : Int
  heap_size : Nat
deriving DecidableEq, Repr

/-- `ExecutionState::try_grow`.  Returns the updated state and `true` on
success, or the state as the source leaves it and `false` for `OutOfGas`.
Note that the source first subtracts the cost difference from `gas_left`
and only then tests for negativity, so on the out-of-gas path the state
keeps the decremented (negative) `gas_left`. -/
def try_grow (s : ExecutionState) (new_words : Nat) : ExecutionState × Bool :=
  if s.heap_size < new_words then
    let g := s.gas_left - (mem_cost new_words - mem_cost s.heap_size)
    if g < 0 then ({ s with gas_left := g }, false)
    else ({ gas_left := g, heap_size := new_words }, true)
  else (s, true)

/-- `ExecutionState::get_heap` restricted to its observable effect on
`gas_left` and `heap_size` (the returned byte slice is not modelled).
`index` is the value of the `U256` argument; `len` is the `u32` argument.
The `index.try_into::<u32>()` failure is the `index ≥ 2^32` branch. -/
def get_heap (s : ExecutionState) (index len : Nat) : ExecutionState × Bool :=
  if len = 0 then (s, true)
  else if 2 ^ 32 ≤ index then (s, false)
  else try_grow s (num_words_u64 (index + len))

/-! ### EVM stack (`EvmStack`)

The stack region grows downward from `stack_base`; `stack_head` points at
the top element.  The live words `stack_head[0] … stack_head[len-1]` are
modelled as a `List Nat` whose head is the top of the stack.  Pushing past
`STACK_SIZE` and popping/reading out of range are programmer errors checked
only by `debug_assert` in the source; out-of-range `pop`/`get` are modelled
as `none`. -/

/-- `EvmStack::push`. -/
def push (s : List Nat) (v : Nat) : List Nat := v :: s

/-- `EvmStack::pop`: returns the top word and the remaining stack. -/
def pop : List Nat → Option (Nat × List Nat)
  | [] => none
  | v :: rest => some (v, rest)

/-- `EvmStack::get`: reads the word at depth `pos` below the top. -/
def get (s : List Nat) (pos : Nat) : Option Nat := s.get? pos

/-- `EvmStack::swap_top`: swaps the top word with the word at depth `pos`. -/
def swap_top (s : List Nat) (pos : Nat) : List Nat :=
  match s.head?, s.get? pos with
  | some top, some deep => (s.set 0 deep).set pos top
  | _, _ => s

/-- Pushing a sequence of words, first element first. -/
def pushList (ws : List Nat) (s : List Nat) : List Nat :=
  ws.foldl push s

/-- Popping `n` times, collecting the popped words in order. -/
def popN : Nat → List Nat → Option (List Nat × List Nat)
  | 0, s => some ([], s)
  | n + 1, s =>
    match pop s with
    | none => none
    | some (v, s2) =>
      match popN n s2 with
      | none => none
      | some (vs, s3) => some (v :: vs, s3)

end Evm

/-! ## Ordered-table primitives

Database tables are modelled as association lists kept in ascending key
order (the on-disk tables are ordered maps; all keys involved are
fixed-width big-endian encodings, so byte-lexicographic order coincides
with the numeric / lexicographic order on the decoded keys). -/

/-- `get` / `seek_exact`: the value at key `k`, if present. -/
def lookupA {α β : Type} [DecidableEq α] : List (α × β) → α → Option β
  | [], _ => none
  | (k0, v0) :: rest, k => if k0 = k then some v0 else lookupA rest k

/-- `put`: overwrite the value at the key if present, else append.
On tables written at strictly increasing keys this preserves the sort
order, matching the stage's usage. -/
def putA {α β : Type} [DecidableEq α] : List (α × β) → α → β → List (α × β)
  | [], k, v => [(k, v)]
  | (k0, v0) :: rest, k, v =>
    if k0 = k then (k, v) :: rest else (k0, v0) :: putA rest k v

/-! ## `tx::read` (`src/accessors/chain.rs`)

`BlockTransaction` maps an 8-byte big-endian transaction id to an
RLP-encoded transaction; the table is modelled as a key-sorted association
list whose values are the already-decoded transactions (each value a
`Nat` identifying the transaction). -/

namespace ChainAccessors

/-- `tx::read(base_tx_id, amount)`: walk the `BlockTransaction` table from
`base_tx_id` upward (the cursor walk yields every entry with key
`≥ base_tx_id` in ascending order — on a sorted table, the filter below),
collecting values and stopping once `amount` of them are gathered.
Returns `[]` when `amount = 0`. -/
def txRead (table : List (Nat × Nat)) (base_tx_id : Nat) (amount : Nat) :
    List Nat :=
  if 0 < amount then
    (((table.filter fun e => decide (base_tx_id ≤ e.1)).map fun e => e.2).take
      amount)
  else []

end ChainAccessors

/-! ## History resolver (`src/state/history.rs`) -/

namespace History

/-- The decoded storage encoding of an account (`Account` in the source);
hashes and addresses are modelled as `Nat`. -/
structure Account where
  nonce : Nat
  balance : Nat
  incarnation : Nat
  code_hash : Nat
deriving DecidableEq, Repr

/-- `EMPTY_HASH`: the code-hash sentinel (keccak of the empty string),
an opaque distinguished constant here. -/
def EMPTY_HASH : Nat := 777

/-- The tables `find_data_by_history` / `get_account_data_as_of` read.
`accountHistory` keys are `address ‖ upper_bound` (both big-endian, so
ordered lexicographically on the `(address, upperBound)` pair); the value
is the chunk's roaring bitmap, iterated in ascending order.
`accountChangeSet` maps a block number to its duplicate-sorted list of
`(address, pre-block account)` entries. -/
structure HistoryDB where
  accountHistory : List ((Nat × Nat) × List Nat)
  accountChangeSet : List (Nat × List (Nat × Account))
  plainState : List (Nat × Account)
  plainCodeHash : List ((Nat × Nat) × Nat)
deriving DecidableEq, Repr

/-- Lexicographic order on `(address, upperBound)` keys, i.e. the
byte-order of the concatenated big-endian encodings. -/
def keyLe (a b : Nat × Nat) : Prop :=
  a.1 < b.1 ∨ (a.1 = b.1 ∧ a.2 ≤ b.2)

instance (a b : Nat × Nat) : Decidable (keyLe a b) := by
  unfold keyLe; infer_instance

/-- `Cursor::seek(k)`: the first entry whose key is `≥ k`, on a table kept
in ascending key order. -/
def seek (table : List ((Nat × Nat) × List Nat)) (k : Nat × Nat) :
    Option ((Nat × Nat) × List Nat) :=
  table.find? fun e => decide (keyLe k e.1)

/-- `AccountHistory::find` on the duplicate-sorted `AccountChangeSet`
table: the change-set entry for `address` at block `b`, if any. -/
def changeSetFind (cs : List (Nat × List (Nat × Account))) (b : Nat)
    (address : Nat) : Option Account :=
  match lookupA cs b with
  | none => none
  | some entries =>
    match entries.find? fun e => decide (e.1 = address) with
    | none => none
    | some e => some e.2

/-- The code-hash re-hydration step of `find_data_by_history`: when the
decoded account has a positive incarnation and the `EMPTY_HASH` sentinel,
the real code hash is loaded from `PlainCodeHash[(address, incarnation)]`
(kept as-is if that lookup finds nothing) and the account re-encoded. -/
def restoreCodeHash (db : HistoryDB) (address : Nat) (acc : Account) :
    Account :=
  if 0 < acc.incarnation ∧ acc.code_hash = EMPTY_HASH then
    match lookupA db.plainCodeHash (address, acc.incarnation) with
    | some ch => { acc with code_hash := ch }
    | none => acc
  else acc

/-- `find_data_by_history(tx, address, block_number)`:
seek the `AccountHistory` chunk for `address ‖ block_number`; if its key
starts with `address`, take the first bitmap element `≥ block_number`,
look that block up in `AccountChangeSet`, and return the (re-hydrated)
pre-block account; every other path yields `none`. -/
def find_data_by_history (db : HistoryDB) (address block_number : Nat) :
    Option Account :=
  match seek db.accountHistory (address, block_number) with
  | none => none
  | some (k, bitmap) =>
    if k.1 = address then
      match bitmap.find? fun n => decide (block_number ≤ n) with
      | none => none
      | some change_set_block =>
        match changeSetFind db.accountChangeSet change_set_block address with
        | none => none
        | some acc => some (restoreCodeHash db address acc)
    else none

/-- `get_account_data_as_of(tx, address, timestamp)`: the history lookup,
falling back to `PlainState[address]` when it yields nothing. -/
def get_account_data_as_of (db : HistoryDB) (address timestamp : Nat) :
    Option Account :=
  match find_data_by_history db address timestamp with
  | some v => some v
  | none => lookupA db.plainState address

end History

/-! ## Header-download stage (`src/stages/headers.rs`) -/

namespace Headers

/-- The fields of `BlockHeader` the stage reads; hashes are `Nat`. -/
structure BlockHeader where
  parent_hash : Nat
  number : Nat
  difficulty : Nat
deriving DecidableEq, Repr

/-- `STAGE_UPPER_BOUND = 3 << 15`. -/
def STAGE_UPPER_BOUND : Nat := 98304

/-- `HEADERS_UPPER_BOUND = 1 << 10`. -/
def HEADERS_UPPER_BOUND : Nat := 1024

/-- The four tables `HeaderDownload::execute` touches, each an ascending
key-ordered association list (`cursor.last()` is the final entry). -/
structure HeaderDB where
  canonicalHeader : List (Nat × Nat)
  headerNumber : List (Nat × Nat)
  header : List ((Nat × Nat) × BlockHeader)
  headersTotalDifficulty : List ((Nat × Nat) × Nat)
deriving DecidableEq, Repr

/-- `ExecOutput`. -/
inductive ExecOutput where
  | progress (stage_progress : Nat) (done reached_tip : Bool)
  | unwind (unwind_to : Nat)
deriving DecidableEq, Repr

/-- The outcome of one modelled run of `HeaderDownload::execute`:
a returned `ExecOutput` together with the database it leaves behind, the
`StageError::Internal` for a missing canonical hash, the two reachable
`unwrap`-of-`None` panics, or one of the two ways the stage can block
forever (the chain-tip poll loop, and a download that never completes
because the modelled batch oracle is exhausted). -/
inductive ExecResult where
  | ok (out : ExecOutput) (db : HeaderDB)
  | errNoCanonicalHash
  | panicUpdateHead
  | panicTdLast
  | pendingPoll
  | pendingDownload
deriving DecidableEq, Repr

/-- Outcome of the `while headers.len() < headers_cap` download loop. -/
inductive DlResult where
  | unwound
  | blocked
  | finished (headers : List (Nat × BlockHeader))
deriving DecidableEq, Repr

/-- The download loop of `execute` (lines 98–111): while fewer than `cap`
headers are accumulated, extend with the next batch returned by
`download_headers` (the batch oracle `batches`); as soon as the
accumulated list is non-empty, its first header's `parent_hash` must
equal `pph` (`prev_progress_hash`) or the loop returns the reorg unwind. -/
def downloadLoop (cap pph : Nat) :
    List (Nat × BlockHeader) → List (List (Nat × BlockHeader)) → DlResult
  | acc, batches =>
    if cap ≤ acc.length then .finished acc
    else
      match batches with
      | [] => .blocked
      | b :: rest =>
        let acc2 := acc ++ b
        match acc2.head? with
        | none => downloadLoop cap pph acc2 rest
        | some (_, h) =>
          if h.parent_hash = pph then downloadLoop cap pph acc2 rest
          else .unwound

/-- `update_head` (called when `prev_progress ≠ 0`) unwraps the canonical
hash at `prev_progress` and the total difficulty at that header key;
`true` when both lookups succeed (so no panic). -/
def updateHeadOk (db : HeaderDB) (prev : Nat) : Bool :=
  if prev ≠ 0 then
    match lookupA db.canonicalHeader prev with
    | some hsh => (lookupA db.headersTotalDifficulty (prev, hsh)).isSome
    | none => false
  else true

/-- Target-block computation (lines 84–93): take the chain tip when it is
within `STAGE_UPPER_BOUND` of `starting_block` (reaching the tip), else
`starting_block + STAGE_UPPER_BOUND`; then clamp to `max_block`. -/
def computeTarget (startingBlock chainTip maxBlock : Nat) : Nat × Bool :=
  let p :=
    if chainTip < startingBlock + STAGE_UPPER_BOUND then (chainTip, true)
    else (startingBlock + STAGE_UPPER_BOUND, false)
  if maxBlock ≤ p.1 then (maxBlock, true) else p

/-- The write phase of `execute` (lines 120–137): fold over the downloaded
headers, skipping block 0 and stopping past `max_block`, accumulating
total difficulty and writing the four tables; returns the updated
database and the final `stage_progress`. -/
def writeHeaders (maxBlock : Nat) :
    HeaderDB → Nat → Nat → List (Nat × BlockHeader) → HeaderDB × Nat
  | db, _, prog, [] => (db, prog)
  | db, td, prog, (hsh, h) :: rest =>
    if h.number = 0 then writeHeaders maxBlock db td prog rest
    else if maxBlock < h.number then (db, prog)
    else
      let td2 := td + h.difficulty
      let db2 : HeaderDB :=
        { headerNumber := putA db.headerNumber hsh h.number
          header := putA db.header (h.number, hsh) h
          canonicalHeader := putA db.canonicalHeader h.number hsh
          headersTotalDifficulty :=
            putA db.headersTotalDifficulty (h.number, hsh) td2 }
      writeHeaders maxBlock db2 td2 h.number rest

/-- `HeaderDownload::execute`.  `chainTip` is the fixed observed value of
`node.chain_tip` during the run; `batches` is the oracle of successive
`download_headers` results; `prevProgress` is
`input.stage_progress.unwrap_or_default()`.  The chain-tip poll loop
(lines 74–80) breaks only when `chainTip > starting_block`
(`= prevProgress + 1`); with a fixed tip at or below that it sleeps
between polls forever (`pendingPoll`).  The reorg return carries
`prev_progress.saturating_sub(1)`, which is `Nat` subtraction here. -/
def execute (db : HeaderDB) (maxBlock chainTip : Nat)
    (batches : List (List (Nat × BlockHeader))) (prevProgress : Nat) :
    ExecResult :=
  if updateHeadOk db prevProgress = false then .panicUpdateHead
  else
    match lookupA db.canonicalHeader prevProgress with
    | none => .errNoCanonicalHash
    | some pph =>
      let startingBlock := prevProgress + 1
      if chainTip ≤ startingBlock then .pendingPoll
      else
        let tr := computeTarget startingBlock chainTip maxBlock
        let cap := tr.1 - startingBlock
        match downloadLoop cap pph [] batches with
        | .blocked => .pendingDownload
        | .unwound => .ok (.unwind (prevProgress - 1)) db
        | .finished headers =>
          match db.headersTotalDifficulty.getLast? with
          | none => .panicTdLast
          | some (_, td) =>
            let r := writeHeaders maxBlock db td prevProgress headers
            .ok (.progress r.2 true tr.2) r.1

/-! ### Seal verification (`HeaderDownload::verify_seal`, lines 346–376)

Worker `i` (for each `i ≥ 1` below `headers.len()`, in parallel) validates
`headers[i]` against `headers[i-1]`; on failure it runs a compare-and-swap
loop on the shared atomic `valid_till`, initialised to `0`, storing `i`
only while `i < valid_till`.  A failing worker's whole CAS loop therefore
has the net effect `valid_till ← if i < valid_till then i else valid_till`.
`schedule` lists the order in which failing workers' CAS loops take
effect — an arbitrary interleaving, with repetitions allowed.  Afterwards
the list is truncated to `valid_till` when that is non-zero, and then to
the collaborator's first reported bad-block position, if any. -/

/-- Whether worker `i` observes a validation failure: `i ≥ 1`, in range,
and `consensus.validate_block_header(headers[i], headers[i-1], false)`
errors (`validate` is the pure consensus predicate, `true` = valid). -/
def failsAt (headers : List (Nat × BlockHeader))
    (validate : BlockHeader → BlockHeader → Bool) (i : Nat) : Bool :=
  match headers.get? i, headers.get? (i - 1) with
  | some cur, some prev => decide (1 ≤ i) && !(validate cur.2 prev.2)
  | _, _ => false

/-- The net effect of one failing worker's CAS retry loop on the atomic. -/
def casNet (valid_till i : Nat) : Nat :=
  if i < valid_till then i else valid_till

/-- The final value of the `valid_till` atomic after the parallel loop:
fold the failing workers' CAS effects, in schedule order, over the
initial value `0`. -/
def validTillFinal (headers : List (Nat × BlockHeader))
    (validate : BlockHeader → BlockHeader → Bool) (schedule : List Nat) :
    Nat :=
  (schedule.filter fun i => failsAt headers validate i).foldl casNet 0

/-- `HeaderDownload::verify_seal`: truncate at `valid_till` when non-zero,
then truncate at `node.position_bad_block` (`badPos`) when reported. -/
def verify_seal (headers : List (Nat × BlockHeader))
    (validate : BlockHeader → BlockHeader → Bool) (schedule : List Nat)
    (badPos : Option Nat) : List (Nat × BlockHeader) :=
  let vt := validTillFinal headers validate schedule
  let hs1 := if vt ≠ 0 then headers.take vt else headers
  match badPos with
  | some index => hs1.take index
  | none => hs1

end Headers

/-! ## Concrete inputs used by the theorems below -/

namespace Evm

/-- A state with no gas and an empty heap. -/
def exState0 : ExecutionState := { gas_left := 0, heap_size := 0 }

/-- A state with ample gas and a 5-word heap. -/
def exState5 : ExecutionState := { gas_left := 10000, heap_size := 5 }

/-- The stack of the source's own unit test: `0xde, 0xad, 0xbe, 0xef`
pushed in order onto an empty stack. -/
def stackEx : List Nat := pushList [0xde, 0xad, 0xbe, 0xef] []

end Evm

namespace ChainAccessors

/-- A `BlockTransaction` table with entries at ids 10 and 17 only. -/
def txTableEx : List (Nat × Nat) := [(10, 100), (17, 200)]

end ChainAccessors

namespace History

/-- The pre-block-2 account of the §8 scenario (balance 100). -/
def acc100 : Account :=
  { nonce := 0, balance := 100, incarnation := 0, code_hash := 0 }

/-- The current account of the §8 scenario (balance 200). -/
def acc200 : Account :=
  { nonce := 1, balance := 200, incarnation := 0, code_hash := 0 }

/-- `u64::MAX`, the upper bound of a subject's last history chunk. -/
def UB_MAX : Nat := 18446744073709551615

/-- The §8 history scenario: address 7 changed only at block 2; the
change-set at block 2 stores the pre-block account (balance 100); the
plain state stores the current account (balance 200). -/
def dbScenario : HistoryDB :=
  { accountHistory := [((7, UB_MAX), [2])]
    accountChangeSet := [(2, [(7, acc100)])]
    plainState := [(7, acc200)]
    plainCodeHash := [] }

/-- An inconsistent database: the history bitmap for address 7 contains
block 2, but the `AccountChangeSet` table has no entry at block 2. -/
def dbInconsistent : HistoryDB :=
  { accountHistory := [((7, UB_MAX), [2])]
    accountChangeSet := []
    plainState := [(7, acc200)]
    plainCodeHash := [] }

end History

namespace Headers

/-- First header of the seal-verification failing input. -/
def hdrA : BlockHeader := { parent_hash := 0, number := 1, difficulty := 1 }

/-- Second header of the seal-verification failing input. -/
def hdrB : BlockHeader := { parent_hash := 90, number := 2, difficulty := 1 }

/-- A two-element header list `[(90, hdrA), (91, hdrB)]`. -/
def sealHeaders : List (Nat × BlockHeader) := [(90, hdrA), (91, hdrB)]

/-- A consensus predicate that rejects every header. -/
def rejectAll : BlockHeader → BlockHeader → Bool := fun _ _ => false

/-- A database at progress 5 (canonical hash 50, total difficulty 10). -/
def dbPoll : HeaderDB :=
  { canonicalHeader := [(5, 50)]
    headerNumber := []
    header := []
    headersTotalDifficulty := [((5, 50), 10)] }

/-- A database at progress 5 used for the reorg run. -/
def dbReorg : HeaderDB :=
  { canonicalHeader := [(5, 50)]
    headerNumber := []
    header := []
    headersTotalDifficulty := [((5, 50), 10)] }

/-- A header at block 6 whose parent hash 99 does not match hash 50. -/
def hdrBad : BlockHeader := { parent_hash := 99, number := 6, difficulty := 1 }

/-- A fresh database: genesis canonical hash seeded, but the
`HeadersTotalDifficulty` table empty. -/
def dbFresh : HeaderDB :=
  { canonicalHeader := [(0, 5)]
    headerNumber := []
    header := []
    headersTotalDifficulty := [] }

/-- A block-1 header linking to the genesis hash 5. -/
def hdrOne : BlockHeader := { parent_hash := 5, number := 1, difficulty := 3 }

end Headers

/-! # Theorems -/

/-! ## EVM heap (claims C2, C5) -/

namespace Evm

/-- Helper: on the `try_grow` out-of-gas path the heap size is kept, and
`gas_left` holds the already-decremented (negative) balance. -/
theorem try_grow_fail_state (s : ExecutionState) (n : Nat)
    (h : (try_grow s n).2 = false) :
    (try_grow s n).1.heap_size = s.heap_size ∧
    (try_grow s n).1.gas_left =
      s.gas_left - (mem_cost n - mem_cost s.heap_size) ∧
    (try_grow s n).1.gas_left < 0 := by
  by_cases h1 : s.heap_size < n
  · by_cases h2 : s.gas_left - (mem_cost n - mem_cost s.heap_size) < 0
    · simp [try_grow, h1, h2]
    · simp [try_grow, h1, h2] at h
  · simp [try_grow, h1] at h

/-- Claim C2 (counterexample): with `gas_left = 0` and an empty heap,
`get_heap(0, 32)` returns `OutOfGas`, yet `gas_left` is changed by the
call — it is left at `-3`, not at its pre-call value `0`.  The claim that
a failing `get_heap` leaves both `heap_size` and `gas_left` unchanged is
therefore false. -/
theorem getHeap_outOfGas_changes_gasLeft :
    (get_heap exState0 0 32).2 = false ∧
    (get_heap exState0 0 32).1.gas_left ≠ exState0.gas_left ∧
    (get_heap exState0 0 32).1.gas_left = -3 ∧
    (get_heap exState0 0 32).1.heap_size = exState0.heap_size := by
  decide

/-- Claim C2 (amended): when `get_heap(index, len)` returns `OutOfGas`,
`heap_size` is unchanged, and `gas_left` is either unchanged (the
`index > u32::MAX` conversion failure) or — on the gas-exhaustion path —
decremented by the memory-cost difference and left negative. -/
theorem getHeap_failure_state (s : ExecutionState) (index len : Nat)
    (h : (get_heap s index len).2 = false) :
    (get_heap s index len).1.heap_size = s.heap_size ∧
    ((get_heap s index len).1.gas_left = s.gas_left ∨
      ((get_heap s index len).1.gas_left =
          s.gas_left -
            (mem_cost (num_words_u64 (index + len)) - mem_cost s.heap_size) ∧
        (get_heap s index len).1.gas_left < 0)) := by
  by_cases h0 : len = 0
  · simp [get_heap, h0] at h
  · by_cases h1 : (4294967296 : Nat) ≤ index
    · simp [get_heap, h0, h1]
    · have h2 : (try_grow s (num_words_u64 (index + len))).2 = false := by
        simpa [get_heap, h0, h1] using h
      have h3 := try_grow_fail_state s (num_words_u64 (index + len)) h2
      refine ⟨?_, Or.inr ⟨?_, ?_⟩⟩
      · simpa [get_heap, h0, h1] using h3.1
      · simpa [get_heap, h0, h1] using h3.2.1
      · simpa [get_heap, h0, h1] using h3.2.2

/-- Witness for `getHeap_failure_state` at the concrete failing call. -/
theorem getHeap_failure_state_witness :
    (get_heap exState0 0 32).2 = false ∧
    ((get_heap exState0 0 32).1.heap_size = exState0.heap_size ∧
      ((get_heap exState0 0 32).1.gas_left = exState0.gas_left ∨
        ((get_heap exState0 0 32).1.gas_left =
            exState0.gas_left -
              (mem_cost (num_words_u64 (0 + 32)) - mem_cost exState0.heap_size) ∧
          (get_heap exState0 0 32).1.gas_left < 0))) :=
  ⟨by decide, getHeap_failure_state exState0 0 32 (by decide)⟩

/-- Claim C5 (counterexample): growing a 5-word heap with
`get_heap(0, 736)` (so `words = ceil(736/32) = 23 > 5`) deducts
`mem_cost(23) - mem_cost(5) = 55` gas, whereas the claimed formula
`(words² - heap_size²)/512 + 3·(words - heap_size)` evaluates to `54`
in integer arithmetic — the two floor divisions do not cancel. -/
theorem memGrowth_formula_counterexample :
    (get_heap exState5 0 736).2 = true ∧
    num_words_u64 (0 + 736) = 23 ∧
    exState5.heap_size = 5 ∧
    exState5.gas_left - (get_heap exState5 0 736).1.gas_left = 55 ∧
    ((23 * 23 - 5 * 5) / 512 + 3 * (23 - 5) : Nat) = 54 := by
  decide

/-- Claim C5 (amended): on every growth request (successful or failing)
with `words = ceil((index + len)/32) > heap_size`, the gas deducted is
`mem_cost(words) - mem_cost(heap_size)` where
`mem_cost(w) = w²/512 + 3·w` with the floor division applied to each term
separately. -/
theorem getHeap_gas_deduction (s : ExecutionState) (index len : Nat)
    (hlen : len ≠ 0) (hidx : index < 2 ^ 32)
    (hgrow : s.heap_size < num_words_u64 (index + len)) :
    s.gas_left - (get_heap s index len).1.gas_left =
      mem_cost (num_words_u64 (index + len)) - mem_cost s.heap_size := by
  have h1 : ¬ (4294967296 : Nat) ≤ index := by
    simpa using Nat.not_le.mpr hidx
  by_cases h2 :
      s.gas_left -
        (mem_cost (num_words_u64 (index + len)) - mem_cost s.heap_size) < 0
  · simp [get_heap, hlen, h1, try_grow, hgrow, h2]
  · simp [get_heap, hlen, h1, try_grow, hgrow, h2]

/-- Witness for `getHeap_gas_deduction` at the concrete call. -/
theorem getHeap_gas_deduction_witness :
    ((736 : Nat) ≠ 0 ∧ (0 : Nat) < 2 ^ 32 ∧
      exState5.heap_size < num_words_u64 (0 + 736)) ∧
    exState5.gas_left - (get_heap exState5 0 736).1.gas_left =
      mem_cost (num_words_u64 (0 + 736)) - mem_cost exState5.heap_size :=
  ⟨⟨by decide, by decide, by decide⟩,
    getHeap_gas_deduction exState5 0 736 (by decide) (by decide) (by decide)⟩

end Evm

/-! ## EVM stack (claim C9) -/

namespace Evm

/-- Pushing a word sequence prepends its reverse. -/
theorem pushList_eq (ws s : List Nat) : pushList ws s = ws.reverse ++ s := by
  induction ws generalizing s with
  | nil => simp [pushList]
  | cons w ws ih =>
    show pushList ws (w :: s) = (w :: ws).reverse ++ s
    rw [ih]
    simp

/-- Popping a stack completely returns exactly its words, top first. -/
theorem popN_all (s : List Nat) : popN s.length s = some (s, []) := by
  induction s with
  | nil => rfl
  | cons v rest ih => simp [popN, pop, ih]

/-- Claim C9: pushing any sequence of at most 1024 words onto an empty
stack and popping `len` times returns the pushed values in reverse order
and leaves the stack empty; and on the source's own example
(`0xde, 0xad, 0xbe, 0xef` pushed in order) `get(2) = 0xad`,
`pop() = 0xef`, after which `get(2) = 0xde`. -/
theorem stack_lifo (ws : List Nat) (_bound : ws.length ≤ STACK_SIZE) :
    (popN (pushList ws []).length (pushList ws []) =
      some (ws.reverse, []) ∧
      pushList ws [] = ws.reverse) ∧
    (get stackEx 2 = some 0xad ∧
      pop stackEx = some (0xef, [0xbe, 0xad, 0xde]) ∧
      get [0xbe, 0xad, 0xde] 2 = some 0xde) := by
  have hp : pushList ws [] = ws.reverse := by simp [pushList_eq]
  constructor
  · constructor
    · rw [hp]
      exact popN_all ws.reverse
    · exact hp
  · exact ⟨by decide, by decide, by decide⟩

/-- Witness for `stack_lifo` on a three-word sequence. -/
theorem stack_lifo_witness :
    ([1, 2, 3] : List Nat).length ≤ STACK_SIZE ∧
    ((popN (pushList [1, 2, 3] []).length (pushList [1, 2, 3] []) =
      some ([3, 2, 1], []) ∧
      pushList [1, 2, 3] [] = [3, 2, 1]) ∧
    (get stackEx 2 = some 0xad ∧
      pop stackEx = some (0xef, [0xbe, 0xad, 0xde]) ∧
      get [0xbe, 0xad, 0xde] 2 = some 0xde)) :=
  ⟨by decide, stack_lifo [1, 2, 3] (by decide)⟩

end Evm

/-! ## `tx::read` (claim C7) -/

namespace ChainAccessors

/-- Claim C7 (counterexample): on a table with entries at ids 10 and 17
only, `tx::read(10, 2)` returns 2 transactions — the walk takes the next
`amount` entries with key `≥ base` without checking contiguity — even
though there is no entry at id 11.  The claimed equivalence with
contiguous occupancy of `base … base+amount-1` is therefore false. -/
theorem txRead_gap_counterexample :
    (txRead txTableEx 10 2).length = 2 ∧
    lookupA txTableEx 11 = none := by
  decide

/-- Claim C7 (amended): for `amount > 0`, the length of
`tx::read(base, amount)` equals `amount` iff the table holds at least
`amount` entries with key `≥ base` (wherever those keys sit). -/
theorem txRead_length (table : List (Nat × Nat)) (base amount : Nat)
    (h : 0 < amount) :
    (txRead table base amount).length = amount ↔
      amount ≤ (table.filter fun e => decide (base ≤ e.1)).length := by
  simp [txRead, h, List.length_take, min_eq_left_iff]

/-- Witness for `txRead_length` on the two-entry table. -/
theorem txRead_length_witness :
    (0 : Nat) < 2 ∧
    ((txRead txTableEx 10 2).length = 2 ↔
      2 ≤ (txTableEx.filter fun e => decide (10 ≤ e.1)).length) :=
  ⟨by decide, txRead_length txTableEx 10 2 (by decide)⟩

end ChainAccessors

/-! ## History resolver (claims C3, C6) -/

namespace History

/-- Claim C3: in the §8 scenario (address 7 changed only at block 2 with
pre-block balance 100 recorded in the change-set and balance 200 in the
plain state), `get_account_data_as_of` returns the pre-state at blocks 1
and 2 — the bitmap lookup uses `n ≥ block_number` and change-sets store
pre-block values — and the plain-state value at block 3. -/
theorem asOf_scenario :
    get_account_data_as_of dbScenario 7 1 = some acc100 ∧
    get_account_data_as_of dbScenario 7 2 = some acc100 ∧
    get_account_data_as_of dbScenario 7 3 = some acc200 := by
  decide

/-- Claim C6 (counterexample): with the history bitmap for address 7
naming block 2 (≥ the queried block 1) but no `AccountChangeSet` entry at
block 2, `get_account_data_as_of` does not return `none`: the history
lookup yields `none` and the function falls back to the `PlainState`
table, returning the current account. -/
theorem asOf_inconsistency_counterexample :
    seek dbInconsistent.accountHistory (7, 1) =
      some ((7, UB_MAX), [2]) ∧
    changeSetFind dbInconsistent.accountChangeSet 2 7 = none ∧
    find_data_by_history dbInconsistent 7 1 = none ∧
    get_account_data_as_of dbInconsistent 7 1 = some acc200 := by
  decide

/-- Claim C6 (amended): when the chunk found for `(address, block)` has a
first bitmap element `b ≥ block` whose change-set entry for the address
is missing, `find_data_by_history` returns `none` and
`get_account_data_as_of` falls back to the `PlainState` lookup. -/
theorem asOf_inconsistency_falls_back (db : HistoryDB)
    (address block b u : Nat) (bm : List Nat)
    (hseek : seek db.accountHistory (address, block) = some ((address, u), bm))
    (hfind : bm.find? (fun n => decide (block ≤ n)) = some b)
    (hcs : changeSetFind db.accountChangeSet b address = none) :
    find_data_by_history db address block = none ∧
    get_account_data_as_of db address block =
      lookupA db.plainState address := by
  have hfd : find_data_by_history db address block = none := by
    simp [find_data_by_history, hseek, hfind, hcs]
  exact ⟨hfd, by simp [get_account_data_as_of, hfd]⟩

/-- Witness for `asOf_inconsistency_falls_back` on the inconsistent
database. -/
theorem asOf_inconsistency_falls_back_witness :
    (seek dbInconsistent.accountHistory (7, 1) =
        some ((7, UB_MAX), [2]) ∧
      ([2] : List Nat).find? (fun n => decide (1 ≤ n)) = some 2 ∧
      changeSetFind dbInconsistent.accountChangeSet 2 7 = none) ∧
    (find_data_by_history dbInconsistent 7 1 = none ∧
      get_account_data_as_of dbInconsistent 7 1 =
        lookupA dbInconsistent.plainState 7) :=
  ⟨⟨by decide, by decide, by decide⟩,
    asOf_inconsistency_falls_back dbInconsistent 7 1 2 UB_MAX [2]
      (by decide) (by decide) (by decide)⟩

end History

/-! ## Header-download stage (claims C1, C4, C8, C10) -/

namespace Headers

/-- Helper: the `valid_till` atomic starts at `0` and a failing worker
stores only while its index is *below* the current value, so no store
ever succeeds: the fold stays at `0` under every schedule. -/
theorem foldl_casNet_zero (l : List Nat) : l.foldl casNet 0 = 0 := by
  induction l with
  | nil => rfl
  | cons i rest ih => simpa [casNet] using ih

/-- Helper: `validTillFinal` is `0` for every header list, consensus
predicate and worker schedule. -/
theorem validTillFinal_eq_zero (headers : List (Nat × BlockHeader))
    (validate : BlockHeader → BlockHeader → Bool) (schedule : List Nat) :
    validTillFinal headers validate schedule = 0 :=
  foldl_casNet_zero _

/-- Helper: consequently the seal-verification step of `verify_seal`
never truncates the header list, whatever the validation outcomes. -/
theorem verify_seal_step_id (headers : List (Nat × BlockHeader))
    (validate : BlockHeader → BlockHeader → Bool) (schedule : List Nat) :
    verify_seal headers validate schedule none = headers := by
  simp [verify_seal, validTillFinal_eq_zero]

/-- Claim C1 (code bug): on a two-header list whose index-1 validation
fails, `verify_seal` leaves the list unchanged instead of truncating it
to the minimum failing index 1.  The atomic `valid_till` is initialised
to `0` and the worker's compare-and-swap loop runs only `while i <
valid_till`, so it can never record a failure and the subsequent
`truncate` is dead code — contradicting both the spec and the evident
intent of the `valid_till` / `headers.truncate(valid_till)` logic. -/
theorem verifySeal_no_truncation :
    failsAt sealHeaders rejectAll 1 = true ∧
    verify_seal sealHeaders rejectAll [1] none = sealHeaders ∧
    verify_seal sealHeaders rejectAll [1, 1] none = sealHeaders ∧
    sealHeaders.take 1 ≠ sealHeaders := by
  decide

/-- Helper: when the first downloaded header (the head of the
concatenation of all batches) does not link to `pph`, the download loop
returns the reorg unwind. -/
theorem downloadLoop_unwound (cap pph hsh : Nat) (h : BlockHeader)
    (batches : List (List (Nat × BlockHeader)))
    (hcap : 0 < cap)
    (hfirst : batches.flatten.head? = some (hsh, h))
    (hne : h.parent_hash ≠ pph) :
    downloadLoop cap pph [] batches = .unwound := by
  induction batches with
  | nil => simp at hfirst
  | cons b rest ih =>
    rw [downloadLoop]
    have hc : ¬ cap ≤ ([] : List (Nat × BlockHeader)).length := by
      simpa using Nat.not_le.mpr hcap
    cases b with
    | nil =>
      simp only [if_neg hc, List.nil_append]
      exact ih (by simpa using hfirst)
    | cons x xs =>
      have hx : x = (hsh, h) := by simpa using hfirst
      subst hx
      have hc0 : ¬ cap = 0 := by omega
      simp [hne, hc0]

/-- Claim C4: whenever the run reaches the download (the canonical hash
at `prev_progress` exists, `update_head` does not panic, the observed
chain tip lets the poll loop exit, the target window is non-empty) and
the first downloaded header's `parent_hash` differs from the stored
canonical hash, `execute` returns `Unwind{unwind_to = prev_progress - 1}`
and leaves all four tables exactly as they were. -/
theorem execute_reorg_unwind (db : HeaderDB)
    (maxBlock chainTip prevProgress pph hsh : Nat) (h : BlockHeader)
    (batches : List (List (Nat × BlockHeader)))
    (hup : updateHeadOk db prevProgress = true)
    (hcanon : lookupA db.canonicalHeader prevProgress = some pph)
    (htip : prevProgress + 1 < chainTip)
    (hcap : 0 <
      (computeTarget (prevProgress + 1) chainTip maxBlock).1 -
        (prevProgress + 1))
    (hfirst : batches.flatten.head? = some (hsh, h))
    (hne : h.parent_hash ≠ pph) :
    execute db maxBlock chainTip batches prevProgress =
      .ok (.unwind (prevProgress - 1)) db := by
  have hdl := downloadLoop_unwound
    ((computeTarget (prevProgress + 1) chainTip maxBlock).1 -
      (prevProgress + 1)) pph hsh h batches hcap hfirst hne
  unfold execute
  rw [hup, hcanon]
  simp [Nat.not_le.mpr htip, hdl]

/-- Witness for `execute_reorg_unwind`: at progress 5 (canonical hash
50), a downloaded block-6 header with parent hash 99 triggers
`Unwind{unwind_to = 4}` with the database untouched. -/
theorem execute_reorg_unwind_witness :
    execute dbReorg 1000 7 [[(21, hdrBad)]] 5 =
      .ok (.unwind 4) dbReorg :=
  execute_reorg_unwind dbReorg 1000 7 5 50 21 hdrBad [[(21, hdrBad)]]
    (by decide) (by decide) (by decide) (by decide) (by decide) (by decide)

/-- Claim C8 (counterexample): at `prev_progress = 5` with observed chain
tip `6 > 5`, the stage does *not* proceed past the poll step: the loop
breaks only when the tip exceeds `starting_block = prev_progress + 1`,
so with tip 6 it sleeps forever.  The claimed exit condition
`tip > prev_progress` is therefore false. -/
theorem execute_poll_counterexample :
    execute dbPoll 100 6 [] 5 = .pendingPoll ∧ 5 < 6 := by
  decide

/-- Claim C8 (amended): for a fixed observed chain tip, the stage stays
in the `BACK_OFF`-sleeping poll loop exactly when the tip is at most
`prev_progress + 1`; it proceeds past the poll step iff
`tip > prev_progress + 1`. -/
theorem execute_poll_iff (db : HeaderDB)
    (maxBlock chainTip prevProgress pph : Nat)
    (batches : List (List (Nat × BlockHeader)))
    (hup : updateHeadOk db prevProgress = true)
    (hcanon : lookupA db.canonicalHeader prevProgress = some pph) :
    (execute db maxBlock chainTip batches prevProgress = .pendingPoll ↔
      chainTip ≤ prevProgress + 1) := by
  unfold execute
  rw [hup, hcanon]
  by_cases htip : chainTip ≤ prevProgress + 1
  · simp [htip]
  · simp only [htip, iff_false]
    rw [if_neg (by simp : ¬ (true = false))]
    rw [if_neg (by simp : ¬ False)]
    split
    · simp
    · simp
    · split <;> simp

/-- Witness for `execute_poll_iff` at tip 6, progress 5. -/
theorem execute_poll_iff_witness :
    updateHeadOk dbPoll 5 = true ∧
    (execute dbPoll 100 6 [] 5 = .pendingPoll ↔ (6 : Nat) ≤ 5 + 1) :=
  ⟨by decide, execute_poll_iff dbPoll 100 6 5 50 [] (by decide) (by decide)⟩

/-- Claim C10: when the `HeadersTotalDifficulty` table is empty (a fresh
database whose genesis total difficulty was never seeded) and the run
otherwise reaches the write phase, `execute` hits
`cursor_td.last()?.map(..).unwrap()` on `None` and panics instead of
returning a typed `StageError`; absence of this panic requires the table
to be non-empty. -/
theorem execute_td_unwrap_panics (db : HeaderDB)
    (maxBlock chainTip g : Nat)
    (batches : List (List (Nat × BlockHeader)))
    (hs : List (Nat × BlockHeader))
    (hcanon : lookupA db.canonicalHeader 0 = some g)
    (htd : db.headersTotalDifficulty = [])
    (htip : 1 < chainTip)
    (hdl : downloadLoop ((computeTarget (0 + 1) chainTip maxBlock).1 - (0 + 1))
        g [] batches = .finished hs) :
    execute db maxBlock chainTip batches 0 = .panicTdLast := by
  have hup : updateHeadOk db 0 = true := by simp [updateHeadOk]
  unfold execute
  rw [hup, hcanon]
  have htip' : ¬ chainTip ≤ 0 + 1 := by omega
  simp [htip', hdl, htd]

/-- Witness for `execute_td_unwrap_panics`: fresh database with genesis
hash 5 seeded and no total difficulty; one linking block-1 header is
downloaded, and the stage panics at the `unwrap`. -/
theorem execute_td_unwrap_panics_witness :
    execute dbFresh 100 2 [[(9, hdrOne)]] 0 = .panicTdLast :=
  execute_td_unwrap_panics dbFresh 100 2 5 [[(9, hdrOne)]] [(9, hdrOne)]
    (by decide) rfl (by decide) (by decide)

end Headers

end Akula
